import Mathlib

/-!
Verification of the secure multi-target execution subsystem of openclaw_pro
(Python sources under src/): the SecurityPolicy path/command gate, the
ExecutionResult value, the Local/SSH/WinRM executors and the
ConnectionManager, shallowly embedded in Lean 4.

Strings from the Python side are modelled as Lean `String` where they stay
opaque, and as `List Char` / `List Nat` (code points or bytes) where the code
inspects them character by character.  Machine-level transports (subprocess,
SFTP, WinRM HTTP) are modelled as explicit environment records supplying the
outcome of each transport call.
-/

namespace OpenClaw

/-- Python substring containment `needle in hay`, on explicit char lists. -/
def containsSub (needle : List Char) : List Char → Bool
  | [] => needle.isEmpty
  | c :: t => needle.isPrefixOf (c :: t) || containsSub needle t

/-- One byte / code-point stream truncated to `n` items, Python `s[:n]`. -/
def pyTake (n : Nat) (s : List Nat) : List Nat := s.take n

/-- Backslash-to-slash normalisation, Python `str(path).replace('\\', '/')`. -/
def normSlashes (s : List Char) : List Char :=
  s.map (fun c => if c = '\\' then '/' else c)

/-- Membership of a character in an fnmatch character class body, with `a-z`
ranges, as produced by `fnmatch.translate` for the text between brackets. -/
def classHas (c : Char) : List Char → Bool
  | x :: '-' :: y :: rest => (x ≤ c && c ≤ y) || classHas c rest
  | x :: rest => (x = c) || classHas c rest
  | [] => false

/-- Scan a char-class body up to the closing bracket: returns the body and
the remainder after the bracket, or `none` when the bracket never closes. -/
def takeUntilRB : List Char → Option (List Char × List Char)
  | [] => none
  | ']' :: r => some ([], r)
  | c :: r =>
    match takeUntilRB r with
    | some (body, rest) => some (c :: body, rest)
    | none => none

/-- Scan an fnmatch class after the opening bracket: an optional `!`
negation, a possibly literal leading `]`, then everything up to the closing
`]`.  Returns (negated, class body, rest of pattern) or `none` when the
bracket is unclosed (then `[` is treated as a literal by fnmatch). -/
def splitClass : List Char → Option (Bool × List Char × List Char)
  | '!' :: ']' :: r => (takeUntilRB r).map (fun x => (true, ']' :: x.1, x.2))
  | '!' :: q => (takeUntilRB q).map (fun x => (true, x.1, x.2))
  | ']' :: r => (takeUntilRB r).map (fun x => (false, ']' :: x.1, x.2))
  | q => (takeUntilRB q).map (fun x => (false, x.1, x.2))

/-- POSIX `fnmatch.fnmatch` glob matching, fuel-indexed so that it is
structurally recursive: `*` matches any run, `?` any one character, `[...]`
a character class (with `!` negation and ranges), any other character
matches itself; an unclosed `[` is a literal bracket.  Every recursive call
shrinks pattern length plus subject length, so the fuel used by `globMatch`
below never runs out. -/
def globMatchF : Nat → List Char → List Char → Bool
  | 0, _, _ => false
  | _ + 1, [], s => s.isEmpty
  | fuel + 1, '*' :: ps, s =>
    globMatchF fuel ps s ||
      (match s with
       | [] => false
       | _ :: s2 => globMatchF fuel ('*' :: ps) s2)
  | fuel + 1, '?' :: ps, s =>
    (match s with
     | [] => false
     | _ :: s2 => globMatchF fuel ps s2)
  | fuel + 1, '[' :: ps, s =>
    (match splitClass ps with
     | some (neg, body, rest) =>
       (match s with
        | [] => false
        | c :: s2 => (classHas c body != neg) && globMatchF fuel rest s2)
     | none =>
       (match s with
        | [] => false
        | c :: s2 => (c = '[') && globMatchF fuel ps s2))
  | fuel + 1, c :: ps, s =>
    (match s with
     | [] => false
     | d :: s2 => (d = c) && globMatchF fuel ps s2)

/-- fnmatch entry point with sufficient fuel. -/
def globMatch (p s : List Char) : Bool :=
  globMatchF (p.length + s.length + 1) p s

/-- Per-character lowercase mapping of CPython `str.lower` (each character is
mapped independently to its lowercase expansion; on the ASCII range used by
the deny list this is the exact A-Z to a-z map). -/
def pyLowerChar (c : Char) : List Char :=
  if 'A' ≤ c && c ≤ 'Z' then [Char.ofNat (c.toNat + 32)] else [c]

/-- Python `str.lower`, character by character. -/
def pyLower : List Char → List Char
  | [] => []
  | c :: t => pyLowerChar c ++ pyLower t

/-- The abstract path resolver of the host: `Path(p).resolve()`,
`Path(p).parent.resolve()` and `Path(p).name`. -/
structure Resolver where
  resolve : String → String
  parentResolve : String → String
  leafName : String → String

/-- The local filesystem: the resolver, the regular files (by canonical
absolute path, with their raw byte contents), and the directories. -/
structure FS where
  res : Resolver
  files : String → Option (List Nat)
  dirs : String → Bool

/-- Python `Path(p).exists()`: the canonical target is a file or directory. -/
def FS.pathExists (fs : FS) (p : String) : Bool :=
  (fs.files (fs.res.resolve p)).isSome || fs.dirs (fs.res.resolve p)

/-- Python `parent / name` on an already-resolved parent. -/
def joinPath (parent leaf : String) : String := parent ++ "/" ++ leaf

namespace SecurityPolicy

/-- The fixed deny list `SecurityPolicy.DANGEROUS_COMMANDS`. -/
def DANGEROUS_COMMANDS : List String := [
  "rm -rf /",
  "rm -rf /*",
  "format c:",
  "del /s /q c:\\",
  ":()\x7b :|:& \x7d;:",
  "mkfs",
  "dd if=/dev/zero",
  "chmod -R 777 /",
  "chown -R root:root /",
  "shutdown -h now",
  "init 0",
  "shutdown /s 0"
]

/-- The default allowed roots of `resolve_safe_path`. -/
def DEFAULT_ALLOWED_ROOTS : List String := ["./workspace"]

/-- The default blocked patterns of `resolve_safe_path`. -/
def DEFAULT_BLOCKED_PATTERNS : List String :=
  ["*/Windows/*", "*/System32/*", "*/etc/*", "*/bin/*", "*/proc/*",
   "*/sys/*", "*/dev/*"]

/-- `SecurityPolicy.is_allowed`: the slash-normalised path must extend some
resolved root by an exact prefix, closed off at a separator boundary. -/
def is_allowed (r : Resolver) (path : String) (allowed_roots : List String) : Bool :=
  let pathStr := normSlashes path.data
  allowed_roots.any fun root =>
    let rootStr := normSlashes (r.resolve root).data
    rootStr.isPrefixOf pathStr &&
      (pathStr.length == rootStr.length || pathStr.getD rootStr.length 'x' == '/')

/-- `SecurityPolicy.is_blocked`: the slash-normalised path matches some
blocked pattern, each pattern substring-wrapped as `*pattern*`. -/
def is_blocked (path : String) (blocked_patterns : List String) : Bool :=
  let pathStr := normSlashes path.data
  blocked_patterns.any fun pattern =>
    globMatch ('*' :: normSlashes pattern.data ++ ['*']) pathStr

/-- The canonical target computed inside `resolve_safe_path`: the resolved
path when it must exist and does, otherwise the resolved parent re-joined
with the leaf name. -/
def safeTarget (fs : FS) (requested_path : String) (must_exist : Bool) : String :=
  if must_exist && fs.pathExists requested_path then
    fs.res.resolve requested_path
  else
    joinPath (fs.res.parentResolve requested_path) (fs.res.leafName requested_path)

/-- Comma-separated join, Python `", ".join(...)`. -/
def joinComma : List String → String
  | [] => ""
  | [x] => x
  | x :: xs => x ++ ", " ++ joinComma xs

/-- The `PermissionError` message of the blacklist branch. -/
def blockedMsg (target : String) : String :=
  "Access Denied: Path '" ++ target ++ "' is in a blocked system directory."

/-- The `PermissionError` message of the whitelist branch. -/
def outsideMsg (r : Resolver) (target : String) (allowed : List String) : String :=
  "Access Denied: Path '" ++ target ++ "' is outside allowed roots.\n" ++
    "Allowed roots: [" ++ joinComma (allowed.map fun p => r.resolve p) ++ "]"

/-- `SecurityPolicy.resolve_safe_path`: compute the canonical target, reject
on the blacklist first, then require whitelist membership, else accept.
Raised `PermissionError`s are modelled as `Except.error` carrying the
message. -/
def resolve_safe_path (fs : FS) (requested_path : String) (must_exist : Bool)
    (allowed_roots : Option (List String)) (blocked_patterns : Option (List String)) :
    Except String String :=
  let allowed := allowed_roots.getD DEFAULT_ALLOWED_ROOTS
  let blocked := blocked_patterns.getD DEFAULT_BLOCKED_PATTERNS
  let target := safeTarget fs requested_path must_exist
  if is_blocked target blocked then
    .error (blockedMsg target)
  else if !(is_allowed fs.res target allowed) then
    .error (outsideMsg fs.res target allowed)
  else
    .ok target

/-- `SecurityPolicy.is_dangerous_command`: case-insensitive substring match
of the command against the deny list. -/
def is_dangerous_command (command : String) : Bool :=
  DANGEROUS_COMMANDS.any fun pattern =>
    containsSub (pyLower pattern.data) (pyLower command.data)

end SecurityPolicy

/-- The `ExecutionResult` pydantic model of `executors/base.py`, with the
same field defaults.  Decoded text fields (`stdout`, `stderr`, `content`)
are lists of Unicode code points. -/
structure ExecutionResult where
  ok : Bool := false
  stdout : List Nat := []
  stderr : List Nat := []
  content : List Nat := []
  path : String := ""
  error : String := ""
  returncode : Int := 0
  target : String := "local"
deriving DecidableEq, Repr

/-- Outcome of one transport-level command dispatch: captured streams and
exit code, a timeout, or a raised exception with its message. -/
inductive CmdOutcome where
  | success (out err : List Nat) (code : Int)
  | timedOut
  | failed (msg : String)

/-- Continuation byte test for UTF-8. -/
def contByte (b : Nat) : Bool := 0x80 ≤ b && b ≤ 0xBF

/-- Admissible second byte after a three-byte lead (excludes overlong forms
and surrogate code points, as CPython's decoder does). -/
def cont2ok (b b2 : Nat) : Bool :=
  if b = 0xE0 then 0xA0 ≤ b2 && b2 ≤ 0xBF
  else if b = 0xED then 0x80 ≤ b2 && b2 ≤ 0x9F
  else contByte b2

/-- Admissible second byte after a four-byte lead (excludes overlong forms
and code points beyond U+10FFFF). -/
def cont2okQ (b b2 : Nat) : Bool :=
  if b = 0xF0 then 0x90 ≤ b2 && b2 ≤ 0xBF
  else if b = 0xF4 then 0x80 ≤ b2 && b2 ≤ 0x8F
  else contByte b2

/-- A multi-byte UTF-8 sequence in progress: continuation bytes still
needed, the value accumulated so far, the lead byte (the first continuation
byte has lead-dependent bounds), and whether that first continuation byte
was already consumed. -/
structure Utf8Pending where
  need : Nat
  acc : Nat
  lead : Nat
  seen2 : Bool
deriving DecidableEq, Repr

/-- One-byte stepper for Python `bytes.decode('utf-8', errors='ignore')`:
strict UTF-8 decoding to code points; on an invalid byte the maximal
invalid subpart (the pending prefix) is dropped and the byte is
re-examined as a fresh lead, and a sequence left unfinished at the end of
input is dropped. -/
def utf8DecodeGo : Option Utf8Pending → List Nat → List Nat
  | _, [] => []
  | none, b :: rest =>
    if b < 0x80 then b :: utf8DecodeGo none rest
    else if 0xC2 ≤ b && b ≤ 0xDF then utf8DecodeGo (some ⟨1, b - 0xC0, b, false⟩) rest
    else if 0xE0 ≤ b && b ≤ 0xEF then utf8DecodeGo (some ⟨2, b - 0xE0, b, false⟩) rest
    else if 0xF0 ≤ b && b ≤ 0xF4 then utf8DecodeGo (some ⟨3, b - 0xF0, b, false⟩) rest
    else utf8DecodeGo none rest
  | some st, b :: rest =>
    let ok2 := if st.seen2 then contByte b
               else if st.lead < 0xF0 then cont2ok st.lead b else cont2okQ st.lead b
    if ok2 then
      if st.need = 1 then (st.acc * 64 + (b - 0x80)) :: utf8DecodeGo none rest
      else utf8DecodeGo (some ⟨st.need - 1, st.acc * 64 + (b - 0x80), st.lead, true⟩) rest
    else
      if b < 0x80 then b :: utf8DecodeGo none rest
      else if 0xC2 ≤ b && b ≤ 0xDF then utf8DecodeGo (some ⟨1, b - 0xC0, b, false⟩) rest
      else if 0xE0 ≤ b && b ≤ 0xEF then utf8DecodeGo (some ⟨2, b - 0xE0, b, false⟩) rest
      else if 0xF0 ≤ b && b ≤ 0xF4 then utf8DecodeGo (some ⟨3, b - 0xF0, b, false⟩) rest
      else utf8DecodeGo none rest

/-- Python `bytes.decode('utf-8', errors='ignore')`. -/
def utf8DecodeIgnore (l : List Nat) : List Nat := utf8DecodeGo none l

/-- UTF-8 encoding of one Unicode scalar value. -/
def utf8EncodeChar (c : Nat) : List Nat :=
  if c < 0x80 then [c]
  else if c < 0x800 then [0xC0 + c / 64, 0x80 + c % 64]
  else if c < 0x10000 then [0xE0 + c / 4096, 0x80 + (c / 64) % 64, 0x80 + c % 64]
  else [0xF0 + c / 262144, 0x80 + (c / 4096) % 64, 0x80 + (c / 64) % 64, 0x80 + c % 64]

/-- Python `str.encode('utf-8')` over a code-point list. -/
def utf8Encode : List Nat → List Nat
  | [] => []
  | c :: cs => utf8EncodeChar c ++ utf8Encode cs

/-- Unicode scalar value: a code point that UTF-8 can carry. -/
def isScalar (c : Nat) : Bool := c < 0x110000 && !(0xD800 ≤ c && c ≤ 0xDFFF)

/-- One-character stepper for universal-newline translation: the flag says
a CR was consumed and its LF is still owed (an immediately following LF is
absorbed by it). -/
def translateNewlinesGo : Bool → List Nat → List Nat
  | pendingCR, [] => if pendingCR then [10] else []
  | pendingCR, c :: rest =>
    if pendingCR then
      if c = 10 then 10 :: translateNewlinesGo false rest
      else if c = 13 then 10 :: translateNewlinesGo true rest
      else 10 :: c :: translateNewlinesGo false rest
    else
      if c = 13 then translateNewlinesGo true rest
      else c :: translateNewlinesGo false rest

/-- Universal-newline translation performed by text-mode `open(...)` reads:
CR LF and lone CR both become LF (13 is CR, 10 is LF). -/
def translateNewlines (l : List Nat) : List Nat := translateNewlinesGo false l

/-- Code points of a Lean string literal. -/
def strCps (s : String) : List Nat := s.data.map Char.toNat

/-- Python `"\n".join(items)`. -/
def joinNL : List String → String
  | [] => ""
  | [x] => x
  | x :: xs => x ++ "\n" ++ joinNL xs

/-- The runtime state every `BaseExecutor` carries: name, connection flag
and the security lists (transport handles live in the environment). -/
structure ExecutorState where
  name : String
  connected : Bool
  allowed_roots : List String
  blocked_patterns : List String

namespace LocalExecutor

/-- `LocalExecutor.execute_command`: dangerous-command gate, then the shell
outcome; captured streams are decoded best effort and truncated to 2000
characters.  The connection flag is never consulted by the source. -/
def execute_command (st : ExecutorState) (outcome : CmdOutcome)
    (command : String) (timeout : Nat) : ExecutionResult :=
  if SecurityPolicy.is_dangerous_command command then
    { ok := false, error := "Security Violation: Dangerous command detected", target := st.name }
  else
    match outcome with
    | .success out err code =>
      { ok := true, stdout := pyTake 2000 (utf8DecodeIgnore out),
        stderr := pyTake 2000 (utf8DecodeIgnore err), returncode := code, target := st.name }
    | .timedOut =>
      { ok := false, error := "Command timed out after " ++ toString timeout ++ "s",
        target := st.name }
    | .failed m => { ok := false, error := m, target := st.name }

/-- `LocalExecutor.read_file`: resolve through the security policy with
`must_exist = true`, require a regular file, enforce the 2 MiB byte
ceiling via `stat`, then read in text mode (UTF-8, errors ignored,
universal newlines). -/
def read_file (fs : FS) (st : ExecutorState) (path : String) : ExecutionResult :=
  match SecurityPolicy.resolve_safe_path fs path true
      (some st.allowed_roots) (some st.blocked_patterns) with
  | .error e => { ok := false, error := "Security Violation: " ++ e, target := st.name }
  | .ok safe =>
    match fs.files safe with
    | none => { ok := false, error := "File not found: " ++ path, target := st.name }
    | some bytes =>
      if bytes.length > 2 * 1024 * 1024 then
        { ok := false, error := "File too large (>2MB): " ++ safe, target := st.name }
      else
        { ok := true, content := translateNewlines (utf8DecodeIgnore bytes),
          path := safe, target := st.name }

/-- `LocalExecutor.write_file`: resolve with `must_exist = false`, then
overwrite the target with the UTF-8 encoding of the content (parent
directory creation leaves the file map untouched in this model). -/
def write_file (fs : FS) (st : ExecutorState) (path : String) (content : List Nat) :
    ExecutionResult × FS :=
  match SecurityPolicy.resolve_safe_path fs path false
      (some st.allowed_roots) (some st.blocked_patterns) with
  | .error e => ({ ok := false, error := "Security Violation: " ++ e, target := st.name }, fs)
  | .ok safe =>
    ({ ok := true, path := safe, target := st.name },
     { fs with files := fun q => if q = safe then some (utf8Encode content) else fs.files q })

/-- `LocalExecutor.list_directory`: resolve with `must_exist = false`; a
raised `PermissionError` is caught by the blanket handler, so its message
lands in `error` unprefixed. -/
def list_directory (fs : FS) (st : ExecutorState) (path : String)
    (listing : String → List (Bool × String)) : ExecutionResult :=
  match SecurityPolicy.resolve_safe_path fs path false
      (some st.allowed_roots) (some st.blocked_patterns) with
  | .error e => { ok := false, error := e, target := st.name }
  | .ok safe =>
    if !((fs.files safe).isSome || fs.dirs safe) then
      { ok := false, error := "Path not found: " ++ path, target := st.name }
    else
      { ok := true,
        content := strCps (joinNL ((listing safe).map fun e =>
          (if e.1 then "dir: " else "file: ") ++ e.2)),
        path := safe, target := st.name }

end LocalExecutor

/-- The SSH transport as seen through paramiko: command execution, SFTP
reads and writes (an `Except.error` / `some` carries a raised exception's
message), and SFTP directory listings (is-directory flag and name). -/
structure SSHEnv where
  run : String → CmdOutcome
  sftpRead : String → Except String (List Nat)
  sftpWrite : String → List Nat → Option String
  sftpList : String → Except String (List (Bool × String))

namespace SSHExecutor

/-- `SSHExecutor.execute_command`: connection guard, dangerous-command
gate, then the exec-channel outcome with 2000-character stream caps. -/
def execute_command (st : ExecutorState) (env : SSHEnv)
    (command : String) (timeout : Nat) : ExecutionResult :=
  if !st.connected then { ok := false, error := "SSH not connected", target := st.name }
  else if SecurityPolicy.is_dangerous_command command then
    { ok := false, error := "Security Violation: Dangerous command detected", target := st.name }
  else
    match env.run command with
    | .success out err code =>
      { ok := true, stdout := pyTake 2000 (utf8DecodeIgnore out),
        stderr := pyTake 2000 (utf8DecodeIgnore err), returncode := code, target := st.name }
    | .timedOut =>
      { ok := false, error := "Command timed out after " ++ toString timeout ++ "s",
        target := st.name }
    | .failed m => { ok := false, error := m, target := st.name }

/-- `SSHExecutor.read_file`: connection guard, then a direct SFTP read of
the requested path (no security-policy resolution in the source), decode
best effort, and reject decoded text longer than 2 MiB characters. -/
def read_file (st : ExecutorState) (env : SSHEnv) (path : String) : ExecutionResult :=
  if !st.connected then { ok := false, error := "SSH not connected", target := st.name }
  else
    match env.sftpRead path with
    | .error m => { ok := false, error := m, target := st.name }
    | .ok bytes =>
      let contentStr := utf8DecodeIgnore bytes
      if contentStr.length > 2 * 1024 * 1024 then
        { ok := false, error := "File too large (>2MB)", target := st.name }
      else
        { ok := true, content := contentStr, path := path, target := st.name }

/-- `SSHExecutor.write_file`: connection guard, a best-effort `mkdir -p`
through `execute_command` whose result is discarded, then a direct SFTP
write of the requested path (again no security-policy resolution). -/
def write_file (st : ExecutorState) (env : SSHEnv) (path : String)
    (content : List Nat) : ExecutionResult :=
  if !st.connected then { ok := false, error := "SSH not connected", target := st.name }
  else
    let remoteDir := String.intercalate "/" ((path.splitOn "/").dropLast)
    let _ := if remoteDir ≠ "" then
        some (execute_command st env ("mkdir -p " ++ remoteDir) 60)
      else none
    match env.sftpWrite path content with
    | some m => { ok := false, error := m, target := st.name }
    | none => { ok := true, path := path, target := st.name }

/-- `SSHExecutor.list_directory`: connection guard, then SFTP attribute
listing formatted one `"<dir|file>: <name>"` line per entry. -/
def list_directory (st : ExecutorState) (env : SSHEnv) (path : String) : ExecutionResult :=
  if !st.connected then { ok := false, error := "SSH not connected", target := st.name }
  else
    match env.sftpList path with
    | .error m => { ok := false, error := m, target := st.name }
    | .ok entries =>
      { ok := true,
        content := strCps (joinNL (entries.map fun e =>
          (if e.1 then "dir: " else "file: ") ++ e.2)),
        path := path, target := st.name }

end SSHExecutor

/-- The WinRM transport: one HTTP round-trip per command. -/
structure WinRMEnv where
  run : String → CmdOutcome

/-- The standard base64 alphabet. -/
def b64Alphabet : List Char :=
  "ABCDEFGHIJKLMNOPQRSTUVWXYZabcdefghijklmnopqrstuvwxyz0123456789+/".data

/-- Digit of the base64 alphabet. -/
def b64Char (n : Nat) : Char := b64Alphabet.getD n 'A'

/-- Standard base64 encoding with `=` padding, Python `base64.b64encode`. -/
def base64Encode : List Nat → List Char
  | b1 :: b2 :: b3 :: rest =>
    let n := b1 * 65536 + b2 * 256 + b3
    b64Char (n / 262144) :: b64Char ((n / 4096) % 64) :: b64Char ((n / 64) % 64) ::
      b64Char (n % 64) :: base64Encode rest
  | [b1, b2] =>
    let n := b1 * 65536 + b2 * 256
    [b64Char (n / 262144), b64Char ((n / 4096) % 64), b64Char ((n / 64) % 64), '=']
  | [b1] =>
    let n := b1 * 65536
    [b64Char (n / 262144), b64Char ((n / 4096) % 64), '=', '=']
  | [] => []

namespace WinRMExecutor

/-- Separator normalisation `path.replace('/', '\\')`. -/
def mapSlash (s : String) : String :=
  String.mk (s.data.map fun c => if c = '/' then '\\' else c)

/-- `WinRMExecutor.execute_command`: connection guard, dangerous-command
gate, then one `run_cmd` round-trip with 2000-character stream caps. -/
def execute_command (st : ExecutorState) (env : WinRMEnv)
    (command : String) (timeout : Nat) : ExecutionResult :=
  if !st.connected then { ok := false, error := "WinRM not connected", target := st.name }
  else if SecurityPolicy.is_dangerous_command command then
    { ok := false, error := "Security Violation: Dangerous command detected", target := st.name }
  else
    match env.run command with
    | .success out err code =>
      { ok := true, stdout := pyTake 2000 (utf8DecodeIgnore out),
        stderr := pyTake 2000 (utf8DecodeIgnore err), returncode := code, target := st.name }
    | .timedOut =>
      { ok := false, error := "Command timed out after " ++ toString timeout ++ "s",
        target := st.name }
    | .failed m => { ok := false, error := m, target := st.name }

/-- The PowerShell command synthesised by `WinRMExecutor.read_file`. -/
def readCmd (psPath : String) : String :=
  "Get-Content -Path '" ++ psPath ++ "' -Raw -Encoding UTF8"

/-- `WinRMExecutor.read_file`: connection guard, then the whole read is the
`stdout` of an `execute_command` round-trip (no security-policy
resolution); the 2 MiB check runs on that already-truncated `stdout`. -/
def read_file (st : ExecutorState) (env : WinRMEnv) (path : String) : ExecutionResult :=
  if !st.connected then { ok := false, error := "WinRM not connected", target := st.name }
  else
    let psPath := mapSlash path
    let result := execute_command st env (readCmd psPath) 60
    if result.ok then
      let content := result.stdout
      if content.length > 2 * 1024 * 1024 then
        { ok := false, error := "File too large (>2MB)", target := st.name }
      else
        { ok := true, content := content, path := path, target := st.name }
    else result

/-- The PowerShell command synthesised by `WinRMExecutor.write_file`. -/
def writeCmd (psPath : String) (content : List Nat) : String :=
  "[System.IO.File]::WriteAllText('" ++ psPath ++
    "', [System.Text.Encoding]::UTF8.GetString([System.Convert]::FromBase64String('" ++
    String.mk (base64Encode (utf8Encode content)) ++ "')))"

/-- The optional mkdir command synthesised by `WinRMExecutor.write_file`. -/
def mkdirCmd (dirPath : String) : String :=
  "if (!(Test-Path '" ++ dirPath ++ "')) \x7b New-Item -ItemType Directory -Force -Path '" ++
    dirPath ++ "' \x7d"

/-- `WinRMExecutor.write_file`: connection guard, an optional mkdir
round-trip whose result is discarded, then the base64-wrapped write; the
dangerous-command filter sees the synthesised PowerShell. -/
def write_file (st : ExecutorState) (env : WinRMEnv) (path : String)
    (content : List Nat) : ExecutionResult :=
  if !st.connected then { ok := false, error := "WinRM not connected", target := st.name }
  else
    let psPath := mapSlash path
    let dirPath := String.intercalate "\\" ((psPath.splitOn "\\").dropLast)
    let _ := if dirPath ≠ "" then some (execute_command st env (mkdirCmd dirPath) 60) else none
    let result := execute_command st env (writeCmd psPath content) 60
    if result.ok then { ok := true, path := path, target := st.name }
    else result

/-- `WinRMExecutor.list_directory`: connection guard, then one round-trip
whose `stdout` becomes the listing. -/
def list_directory (st : ExecutorState) (env : WinRMEnv) (path : String) : ExecutionResult :=
  if !st.connected then { ok := false, error := "WinRM not connected", target := st.name }
  else
    let psPath := mapSlash path
    let result := execute_command st env
      ("Get-ChildItem -Path '" ++ psPath ++ "' | Select-Object Name, Mode | Format-Table") 60
    if result.ok then
      { ok := true, content := result.stdout, path := path, target := st.name }
    else result

end WinRMExecutor

/-- The per-transport connection parameters of a remote machine, reduced to
the parts the connection manager hands to the executor that this
development models (host/port/credential fields stay abstract). -/
structure RemoteCfg where
  allowed_roots : List String
  blocked_patterns : List String
deriving DecidableEq, Repr

/-- `MachineConfig` of `config.py`: name, type, default flag and the
optional per-type connection blocks. -/
structure MachineConfig where
  name : String
  mtype : String
  is_default : Bool
  ssh : Option RemoteCfg
  winrm : Option RemoteCfg
deriving DecidableEq, Repr

/-- The slice of `AgentConfig` the connection manager consumes. -/
structure AgentConfig where
  local_allowed_roots : List String
  local_blocked_patterns : List String
  machines : List MachineConfig
deriving DecidableEq, Repr

/-- A pooled executor, tagged by backend. -/
inductive PoolExec where
  | localE (allowed_roots blocked_patterns : List String)
  | sshE (cfg : RemoteCfg)
  | winrmE (cfg : RemoteCfg)
deriving DecidableEq, Repr

/-- The `ConnectionManager` state: the name-to-executor pool, the
remembered default machine and the initialized flag. -/
structure ManagerState where
  executors : List (String × PoolExec)
  default_machine : String
  initialized : Bool
deriving DecidableEq, Repr

namespace ConnectionManager

/-- Python dict insertion `d[k] = v`: overwrite in place, else append. -/
def dictInsert (pool : List (String × PoolExec)) (n : String) (e : PoolExec) :
    List (String × PoolExec) :=
  if (List.lookup n pool).isSome then
    pool.map fun kv => if kv.1 = n then (n, e) else kv
  else pool ++ [(n, e)]

/-- One iteration of the machine loop in `ConnectionManager.initialize`:
local-typed entries only update the default name; remote entries are
constructed when their config block is present, pooled when `connect()`
(the oracle `σ`) succeeds, and then recorded as default if flagged. -/
def initStep (σ : String → Bool) (s : ManagerState) (m : MachineConfig) : ManagerState :=
  if m.mtype = "local" then
    if m.is_default then { s with default_machine := m.name } else s
  else
    match (if m.mtype = "ssh" then m.ssh.map .sshE
           else if m.mtype = "winrm" then m.winrm.map .winrmE
           else none : Option PoolExec) with
    | none => s
    | some e =>
      if σ m.name then
        { s with executors := dictInsert s.executors m.name e,
                 default_machine := if m.is_default then m.name else s.default_machine }
      else s

/-- `ConnectionManager.initialize`: connect the implicit `local` executor
first (pooled only when its `connect()` succeeds), run the machine loop,
and mark the manager initialized unconditionally at the end.  The
connect oracle `σ` tells which `connect()` calls succeed. -/
def initializePool (cfg : AgentConfig) (σ : String → Bool) : ManagerState :=
  let base : List (String × PoolExec) :=
    if σ "local" then
      [("local", .localE cfg.local_allowed_roots cfg.local_blocked_patterns)]
    else []
  let s1 := cfg.machines.foldl (initStep σ) ⟨base, "local", false⟩
  { s1 with initialized := true }

/-- `ConnectionManager.get_default_machine`. -/
def get_default_machine (s : ManagerState) : String := s.default_machine

/-- Name resolution of `get_executor`: Python `machine_name or
self.default_machine` treats an empty explicit name as absent. -/
def resolveArg (arg : Option String) (dflt : String) : String :=
  match arg with
  | none => dflt
  | some s => if s = "" then dflt else s

/-- Python `str` of a list of strings, `"['a', 'b']"`. -/
def quotedJoin : List String → String
  | [] => ""
  | [x] => "'" ++ x ++ "'"
  | x :: xs => "'" ++ x ++ "', " ++ quotedJoin xs

/-- The `ValueError` message of `get_executor`. -/
def notAvailMsg (n : String) (avail : List String) : String :=
  "Machine '" ++ n ++ "' not available. Available: [" ++ quotedJoin avail ++ "]"

/-- `ConnectionManager.get_executor`: resolve the name, then pool lookup or
a `ValueError` listing the available names (modelled as `Except.error`). -/
def get_executor (s : ManagerState) (arg : Option String) : Except String PoolExec :=
  let name := resolveArg arg s.default_machine
  match List.lookup name s.executors with
  | none => .error (notAvailMsg name (s.executors.map Prod.fst))
  | some e => .ok e

end ConnectionManager

/-- The `ExecutionResult` success/error dichotomy of the spec: `error` is
empty exactly on success.  (That `stdout`/`stderr`/`content` are never null
is carried by the embedding's types: they are total string fields.) -/
def ResultInv (r : ExecutionResult) : Prop :=
  (r.ok = true → r.error = "") ∧ (r.ok = false → r.error ≠ "")

/-- A transport outcome whose exception message, if any, is non-empty
(Python `str(e)` of the caught exception). -/
def outcomeMsgOk (o : CmdOutcome) : Prop := ∀ m, o = .failed m → m ≠ ""

/-- A tiny host for witnesses: resolution is the identity except that every
path's parent is `/etc` with leaf `passwd`; no file exists. -/
def fsDemo : FS :=
  ⟨⟨fun s => s, fun _ => "/etc", fun _ => "passwd"⟩, fun _ => none, fun _ => false⟩

/-- An empty one-directory host: everything resolves into `/ws`. -/
def fsRT : FS :=
  ⟨⟨fun s => if s = "/ws" then "/ws" else "/ws/f", fun _ => "/ws", fun _ => "f"⟩,
   fun _ => none, fun _ => false⟩

/-- A host holding the two-byte file `/ws/f`. -/
def fsSmall : FS :=
  ⟨⟨fun s => if s = "/ws" then "/ws" else "/ws/f", fun _ => "/ws", fun _ => "f"⟩,
   fun q => if q = "/ws/f" then some [104, 105] else none, fun _ => false⟩

/-- A local executor state confined to `/ws` with no blocked patterns. -/
def stRT : ExecutorState := ⟨"local", true, ["/ws"], []⟩

/-- 2 MiB + 1 bytes of ASCII text. -/
def bigAsciiContent : List Nat := List.replicate 2097153 97

/-- The UTF-8 bytes of 1048577 copies of U+00A2: 2 MiB + 2 bytes whose
decoded text is only 1048577 characters. -/
def bigLatinBytes : List Nat := utf8Encode (List.replicate 1048577 0xA2)

/-- An SSH transport serving `bigLatinBytes` for every path. -/
def sshEnvBig : SSHEnv :=
  ⟨fun _ => .timedOut, fun _ => .ok bigLatinBytes, fun _ _ => none, fun _ => .error "x"⟩

/-- An SSH transport serving the two bytes `hi` for every path. -/
def sshEnvSmall : SSHEnv :=
  ⟨fun _ => .timedOut, fun _ => .ok [104, 105], fun _ _ => none, fun _ => .error "x"⟩

/-- An SSH transport whose SFTP calls raise an exception carrying no text,
as `str` of a bare `asyncio.TimeoutError` does when the 30-second read
bound expires. -/
def sshEnvEmptyMsg : SSHEnv :=
  ⟨fun _ => .timedOut, fun _ => .error "", fun _ _ => some "", fun _ => .error ""⟩

/-! Helper lemmas about substring containment and lowercasing. -/

theorem isPrefixOf_self (n : List Char) : n.isPrefixOf n = true := by
  induction n with
  | nil => rfl
  | cons c t ih =>
    simp only [List.isPrefixOf, Bool.and_eq_true]
    exact ⟨by simp, ih⟩

theorem isPrefixOf_extend {n h : List Char} (g : List Char)
    (hp : n.isPrefixOf h = true) : n.isPrefixOf (h ++ g) = true := by
  induction n generalizing h with
  | nil => cases h ++ g <;> rfl
  | cons c t ih =>
    cases h with
    | nil =>
      simp only [List.isPrefixOf] at hp
      exact Bool.noConfusion hp
    | cons d h2 =>
      simp only [List.isPrefixOf, Bool.and_eq_true] at hp ⊢
      exact ⟨hp.1, ih hp.2⟩

theorem containsSub_self (n : List Char) : containsSub n n = true := by
  cases n with
  | nil => rfl
  | cons c t =>
    simp only [containsSub, Bool.or_eq_true]
    exact Or.inl (isPrefixOf_self _)

theorem containsSub_cons {n h : List Char} (c : Char)
    (hc : containsSub n h = true) : containsSub n (c :: h) = true := by
  simp [containsSub, hc]

theorem containsSub_append_left {n h : List Char} (g : List Char)
    (hc : containsSub n h = true) : containsSub n (g ++ h) = true := by
  induction g with
  | nil => simpa using hc
  | cons c g2 ih => exact containsSub_cons c ih

theorem containsSub_append_right {n h : List Char} (g : List Char)
    (hc : containsSub n h = true) : containsSub n (h ++ g) = true := by
  induction h with
  | nil =>
    simp [containsSub] at hc
    subst hc
    cases g with
    | nil => rfl
    | cons c g2 => simp [containsSub, List.isPrefixOf]
  | cons c h2 ih =>
    simp only [containsSub, Bool.or_eq_true] at hc ⊢
    rcases hc with hc | hc
    · exact Or.inl (isPrefixOf_extend g hc)
    · exact Or.inr (ih hc)

theorem pyLower_append (a b : List Char) :
    pyLower (a ++ b) = pyLower a ++ pyLower b := by
  induction a with
  | nil => rfl
  | cons c t ih => simp [pyLower, ih]

/-! The claims. -/

/-- C1: `resolve_safe_path` accepts (returns the canonical target) exactly
when the target is under some allowed root and matches no blocked pattern;
when a blocked pattern matches, the blacklist rejection fires regardless of
whitelist membership. -/
theorem C1_resolve_safe_path_iff (fs : FS) (p : String) (me : Bool)
    (R B : List String) :
    (SecurityPolicy.resolve_safe_path fs p me (some R) (some B) =
        Except.ok (SecurityPolicy.safeTarget fs p me) ↔
      (SecurityPolicy.is_allowed fs.res (SecurityPolicy.safeTarget fs p me) R = true ∧
        SecurityPolicy.is_blocked (SecurityPolicy.safeTarget fs p me) B = false)) ∧
    (SecurityPolicy.is_blocked (SecurityPolicy.safeTarget fs p me) B = true →
      SecurityPolicy.resolve_safe_path fs p me (some R) (some B) =
        Except.error (SecurityPolicy.blockedMsg (SecurityPolicy.safeTarget fs p me))) := by
  unfold SecurityPolicy.resolve_safe_path
  by_cases hb : SecurityPolicy.is_blocked (SecurityPolicy.safeTarget fs p me) B <;>
    by_cases ha : SecurityPolicy.is_allowed fs.res (SecurityPolicy.safeTarget fs p me) R <;>
      simp [hb, ha]

/-- Witness for C1 at a concrete blocked path. -/
theorem C1_resolve_safe_path_iff_witness :
    SecurityPolicy.is_blocked (SecurityPolicy.safeTarget fsDemo "/etc/passwd" false)
      ["*/etc/*"] = true ∧
    SecurityPolicy.resolve_safe_path fsDemo "/etc/passwd" false (some ["/"]) (some ["*/etc/*"]) =
      Except.error (SecurityPolicy.blockedMsg
        (SecurityPolicy.safeTarget fsDemo "/etc/passwd" false)) :=
  ⟨by decide, (C1_resolve_safe_path_iff fsDemo "/etc/passwd" false ["/"] ["*/etc/*"]).2 (by decide)⟩

/-- C10: `is_dangerous_command` is monotone under string extension — any
dangerous command stays dangerous when text is prepended and appended,
because matching is substring containment after a per-character
lowercasing. -/
theorem C10_dangerous_monotone (a c b : String)
    (h : SecurityPolicy.is_dangerous_command c = true) :
    SecurityPolicy.is_dangerous_command (a ++ c ++ b) = true := by
  unfold SecurityPolicy.is_dangerous_command at h ⊢
  rw [List.any_eq_true] at h ⊢
  obtain ⟨p, hp, hsub⟩ := h
  refine ⟨p, hp, ?_⟩
  have hdata : (a ++ c ++ b).data = a.data ++ (c.data ++ b.data) := by
    simp [String.data_append]
  rw [hdata, pyLower_append, pyLower_append]
  exact containsSub_append_left _ (containsSub_append_right _ (by simpa using hsub))

/-- Witness for C10: `"rm -rf /"` is dangerous, hence so is its extension. -/
theorem C10_dangerous_monotone_witness :
    SecurityPolicy.is_dangerous_command ("sudo " ++ "rm -rf /" ++ " --now") = true :=
  C10_dangerous_monotone "sudo " "rm -rf /" " --now" (by decide)

/-- The machine loop never changes the default name when no machine in the
remaining list carries the default flag. -/
theorem foldl_initStep_default (σ : String → Bool) (ms : List MachineConfig)
    (s : ManagerState) (h : ∀ m ∈ ms, m.is_default = false) :
    (ms.foldl (ConnectionManager.initStep σ) s).default_machine = s.default_machine := by
  induction ms generalizing s with
  | nil => rfl
  | cons m ms ih =>
    have hm : m.is_default = false := h m (by simp)
    have hrest : ∀ x ∈ ms, x.is_default = false := fun x hx => h x (by simp [hx])
    rw [List.foldl_cons, ih _ hrest]
    unfold ConnectionManager.initStep
    split
    · split <;> simp_all
    · split
      · rfl
      · split <;> simp [hm]

/-- C7: after initialization, the default machine is the connected remote
flagged `is_default` (here `"db"`), and stays `"local"` whenever no machine
carries the flag. -/
theorem C7_default_resolution :
    (∀ (lr lp : List String) (rcfg : RemoteCfg) (σ : String → Bool), σ "db" = true →
      ConnectionManager.get_default_machine
        (ConnectionManager.initializePool
          ⟨lr, lp, [⟨"local", "local", false, none, none⟩,
                    ⟨"db", "ssh", true, some rcfg, none⟩]⟩ σ) = "db") ∧
    (∀ (cfg : AgentConfig) (σ : String → Bool),
      (∀ m ∈ cfg.machines, m.is_default = false) →
      ConnectionManager.get_default_machine
        (ConnectionManager.initializePool cfg σ) = "local") := by
  constructor
  · intro lr lp rcfg σ hdb
    simp [ConnectionManager.initializePool, ConnectionManager.get_default_machine,
      ConnectionManager.initStep, hdb]
  · intro cfg σ h
    simp only [ConnectionManager.initializePool, ConnectionManager.get_default_machine]
    rw [foldl_initStep_default σ cfg.machines _ h]

/-- Witness for C7 at a concrete configuration and connect oracle. -/
theorem C7_default_resolution_witness :
    ConnectionManager.get_default_machine
      (ConnectionManager.initializePool
        ⟨[], [], [⟨"local", "local", false, none, none⟩,
                  ⟨"db", "ssh", true, some ⟨[], []⟩, none⟩]⟩ (fun _ => true)) = "db" ∧
    ConnectionManager.get_default_machine
      (ConnectionManager.initializePool
        ⟨[], [], [⟨"web", "ssh", false, some ⟨[], []⟩, none⟩]⟩ (fun _ => true)) = "local" :=
  ⟨C7_default_resolution.1 [] [] ⟨[], []⟩ (fun _ => true) rfl,
   C7_default_resolution.2 ⟨[], [], [⟨"web", "ssh", false, some ⟨[], []⟩, none⟩]⟩
     (fun _ => true) (by simp)⟩

/-- Membership in a name list makes the name a substring of its Python
list representation. -/
theorem containsSub_quotedJoin {k : String} {names : List String} (h : k ∈ names) :
    containsSub k.data (ConnectionManager.quotedJoin names).data = true := by
  induction names with
  | nil => cases h
  | cons x xs ih =>
    rcases List.mem_cons.mp h with hk | hk
    · subst hk
      cases xs with
      | nil =>
        show containsSub k.data ("'" ++ k ++ "'").data = true
        rw [String.data_append, String.data_append]
        exact containsSub_append_right _ (containsSub_append_left _ (containsSub_self _))
      | cons y ys =>
        show containsSub k.data ("'" ++ k ++ "', " ++
          ConnectionManager.quotedJoin (y :: ys)).data = true
        rw [String.data_append, String.data_append, String.data_append]
        exact containsSub_append_right _
          (containsSub_append_right _ (containsSub_append_left _ (containsSub_self _)))
    · cases xs with
      | nil => cases hk
      | cons y ys =>
        show containsSub k.data ("'" ++ x ++ "', " ++
          ConnectionManager.quotedJoin (y :: ys)).data = true
        rw [String.data_append, String.data_append, String.data_append]
        exact containsSub_append_left _ (ih hk)

/-- C8: `get_executor` returns the pooled executor bound to the resolved
name when present, and otherwise fails with the not-available error whose
message mentions every pooled name. -/
theorem C8_get_executor (pool : List (String × PoolExec)) (dflt : String)
    (init : Bool) (arg : Option String) :
    (∀ e, List.lookup (ConnectionManager.resolveArg arg dflt) pool = some e →
      ConnectionManager.get_executor ⟨pool, dflt, init⟩ arg = Except.ok e) ∧
    (List.lookup (ConnectionManager.resolveArg arg dflt) pool = none →
      ConnectionManager.get_executor ⟨pool, dflt, init⟩ arg =
        Except.error (ConnectionManager.notAvailMsg
          (ConnectionManager.resolveArg arg dflt) (pool.map Prod.fst)) ∧
      ∀ k ∈ pool.map Prod.fst,
        containsSub k.data (ConnectionManager.notAvailMsg
          (ConnectionManager.resolveArg arg dflt) (pool.map Prod.fst)).data = true) := by
  constructor
  · intro e he
    simp [ConnectionManager.get_executor, he]
  · intro hn
    refine ⟨by simp [ConnectionManager.get_executor, hn], ?_⟩
    intro k hk
    show containsSub k.data
      (("Machine '" ++ ConnectionManager.resolveArg arg dflt ++
        "' not available. Available: [" ++
        ConnectionManager.quotedJoin (pool.map Prod.fst) ++ "]")).data = true
    rw [String.data_append, String.data_append, String.data_append, String.data_append]
    exact containsSub_append_right _ (containsSub_append_left _ (containsSub_quotedJoin hk))

/-- Witness for C8: a present name returns its executor, an absent name
produces the error listing the pooled names. -/
theorem C8_get_executor_witness :
    ConnectionManager.get_executor
      ⟨[("local", .localE [] []), ("db", .sshE ⟨[], []⟩)], "local", true⟩ (some "db") =
      Except.ok (.sshE ⟨[], []⟩) ∧
    ConnectionManager.get_executor
      ⟨[("local", .localE [] []), ("db", .sshE ⟨[], []⟩)], "local", true⟩ (some "gone") =
      Except.error (ConnectionManager.notAvailMsg "gone" ["local", "db"]) ∧
    containsSub "db".data
      (ConnectionManager.notAvailMsg "gone" ["local", "db"]).data = true :=
  have h2 := (C8_get_executor [("local", .localE [] []), ("db", .sshE ⟨[], []⟩)]
    "local" true (some "gone")).2 (by decide)
  ⟨(C8_get_executor [("local", .localE [] []), ("db", .sshE ⟨[], []⟩)]
      "local" true (some "db")).1 _ (by decide),
   h2.1, h2.2 "db" (by decide)⟩

/-- C3 counterexample: a `LocalExecutor` whose `connected` flag is false
still executes the command and returns `ok = true` with empty error — not
the "not connected" result the claim requires. -/
theorem C3_local_runs_while_disconnected :
    (LocalExecutor.execute_command ⟨"local", false, [], []⟩
      (.success (strCps "hi") [] 0) "echo hi" 60).ok = true ∧
    (LocalExecutor.execute_command ⟨"local", false, [], []⟩
      (.success (strCps "hi") [] 0) "echo hi" 60).error = "" := by
  constructor <;> decide

/-- C3 amended: the SSH and WinRM executors answer every data-plane
operation in a non-connected state with the constant `ok = false` /
"not connected" result, without touching the transport; the local executor
ignores the connection flag entirely (its operations do not depend on it). -/
theorem C3_not_connected_guard (st : ExecutorState) (h : st.connected = false)
    (env : SSHEnv) (wenv : WinRMEnv) (fs : FS) (oc : CmdOutcome)
    (cmd path : String) (content : List Nat) (t : Nat)
    (listing : String → List (Bool × String)) :
    SSHExecutor.execute_command st env cmd t =
      { ok := false, error := "SSH not connected", target := st.name } ∧
    SSHExecutor.read_file st env path =
      { ok := false, error := "SSH not connected", target := st.name } ∧
    SSHExecutor.write_file st env path content =
      { ok := false, error := "SSH not connected", target := st.name } ∧
    SSHExecutor.list_directory st env path =
      { ok := false, error := "SSH not connected", target := st.name } ∧
    WinRMExecutor.execute_command st wenv cmd t =
      { ok := false, error := "WinRM not connected", target := st.name } ∧
    WinRMExecutor.read_file st wenv path =
      { ok := false, error := "WinRM not connected", target := st.name } ∧
    WinRMExecutor.write_file st wenv path content =
      { ok := false, error := "WinRM not connected", target := st.name } ∧
    WinRMExecutor.list_directory st wenv path =
      { ok := false, error := "WinRM not connected", target := st.name } ∧
    LocalExecutor.execute_command { st with connected := false } oc cmd t =
      LocalExecutor.execute_command { st with connected := true } oc cmd t ∧
    LocalExecutor.read_file fs { st with connected := false } path =
      LocalExecutor.read_file fs { st with connected := true } path ∧
    (LocalExecutor.write_file fs { st with connected := false } path content =
      LocalExecutor.write_file fs { st with connected := true } path content) ∧
    LocalExecutor.list_directory fs { st with connected := false } path listing =
      LocalExecutor.list_directory fs { st with connected := true } path listing := by
  refine ⟨?_, ?_, ?_, ?_, ?_, ?_, ?_, ?_, rfl, rfl, rfl, rfl⟩ <;>
    simp [SSHExecutor.execute_command, SSHExecutor.read_file, SSHExecutor.write_file,
      SSHExecutor.list_directory, WinRMExecutor.execute_command, WinRMExecutor.read_file,
      WinRMExecutor.write_file, WinRMExecutor.list_directory, h]

/-- Witness for C3 amended at a concrete disconnected state. -/
theorem C3_not_connected_guard_witness :
    SSHExecutor.execute_command ⟨"m", false, [], []⟩
      ⟨fun _ => .timedOut, fun _ => .error "x", fun _ _ => none, fun _ => .error "x"⟩
      "ls" 60 = { ok := false, error := "SSH not connected", target := "m" } :=
  (C3_not_connected_guard ⟨"m", false, [], []⟩ rfl
    ⟨fun _ => .timedOut, fun _ => .error "x", fun _ _ => none, fun _ => .error "x"⟩
    ⟨fun _ => .timedOut⟩ fsDemo .timedOut "ls" "p" [] 60 (fun _ => [])).1

/-- Bounded streams: a successful WinRM `execute_command` always carries at
most 2000 characters of stdout. -/
theorem winrmExec_stdout_le (st : ExecutorState) (env : WinRMEnv) (c : String) (t : Nat)
    (h : (WinRMExecutor.execute_command st env c t).ok = true) :
    (WinRMExecutor.execute_command st env c t).stdout.length ≤ 2000 := by
  unfold WinRMExecutor.execute_command at h ⊢
  by_cases hc : st.connected <;> simp [hc] at h ⊢
  by_cases hd : SecurityPolicy.is_dangerous_command c <;> simp [hd] at h ⊢
  cases henv : env.run c <;> simp [henv] at h ⊢
  simp [pyTake]

/-- C9: every successful WinRM `read_file` returns at most 2000 characters
of content (it is the truncated `stdout` of `execute_command`), and
whenever the underlying round-trip succeeds the result is the `ok` record —
the 2 MiB rejection branch can never fire. -/
theorem C9_winrm_read_capped (st : ExecutorState) (env : WinRMEnv) (path : String) :
    ((WinRMExecutor.read_file st env path).ok = true →
      (WinRMExecutor.read_file st env path).content.length ≤ 2000) ∧
    (∀ out err code,
      env.run (WinRMExecutor.readCmd (WinRMExecutor.mapSlash path)) = .success out err code →
      st.connected = true →
      SecurityPolicy.is_dangerous_command
        (WinRMExecutor.readCmd (WinRMExecutor.mapSlash path)) = false →
      WinRMExecutor.read_file st env path =
        { ok := true, content := pyTake 2000 (utf8DecodeIgnore out),
          path := path, target := st.name }) := by
  constructor
  · intro h
    unfold WinRMExecutor.read_file at h ⊢
    by_cases hc : st.connected <;> simp [hc] at h ⊢
    by_cases hok : (WinRMExecutor.execute_command st env
        (WinRMExecutor.readCmd (WinRMExecutor.mapSlash path)) 60).ok
    · have hle := winrmExec_stdout_le st env
        (WinRMExecutor.readCmd (WinRMExecutor.mapSlash path)) 60 hok
      have hnot : ¬((WinRMExecutor.execute_command st env
          (WinRMExecutor.readCmd (WinRMExecutor.mapSlash path)) 60).stdout.length >
            2 * 1024 * 1024) := by omega
      simp [hok, hnot] at h ⊢
      exact hle
    · simp [hok] at h
  · intro out err code henv hc hd
    have hstdout : WinRMExecutor.execute_command st env
        (WinRMExecutor.readCmd (WinRMExecutor.mapSlash path)) 60 =
        { ok := true, stdout := pyTake 2000 (utf8DecodeIgnore out),
          stderr := pyTake 2000 (utf8DecodeIgnore err), returncode := code,
          target := st.name } := by
      unfold WinRMExecutor.execute_command
      simp [hc, hd, henv]
    unfold WinRMExecutor.read_file
    have hlen : ¬((pyTake 2000 (utf8DecodeIgnore out)).length > 2 * 1024 * 1024) := by
      have := List.length_take_le 2000 (utf8DecodeIgnore out)
      simp [pyTake]
    simp [hc, hstdout, hlen]

/-- Witness for C9 at a concrete connected state and round-trip. -/
theorem C9_winrm_read_capped_witness :
    ((WinRMExecutor.read_file ⟨"w", true, [], []⟩ ⟨fun _ => .success (strCps "hello") [] 0⟩
        "C:/f.txt").ok = true →
      (WinRMExecutor.read_file ⟨"w", true, [], []⟩ ⟨fun _ => .success (strCps "hello") [] 0⟩
        "C:/f.txt").content.length ≤ 2000) ∧
    WinRMExecutor.read_file ⟨"w", true, [], []⟩ ⟨fun _ => .success (strCps "hello") [] 0⟩
        "C:/f.txt" =
      { ok := true, content := pyTake 2000 (utf8DecodeIgnore (strCps "hello")),
        path := "C:/f.txt", target := "w" } :=
  ⟨(C9_winrm_read_capped ⟨"w", true, [], []⟩ ⟨fun _ => .success (strCps "hello") [] 0⟩
      "C:/f.txt").1,
   (C9_winrm_read_capped ⟨"w", true, [], []⟩ ⟨fun _ => .success (strCps "hello") [] 0⟩
      "C:/f.txt").2 (strCps "hello") [] 0 rfl rfl (by decide)⟩

/-! Helper lemmas for the result invariant. -/

theorem data_ne_nil_imp (s : String) (h : s.data ≠ []) : s ≠ "" := by
  intro he
  rw [he] at h
  exact h rfl

theorem append_ne_empty_left (a b : String) (h : a.data ≠ []) : a ++ b ≠ "" := by
  apply data_ne_nil_imp
  rw [String.data_append]
  simp [h]

theorem resultInv_ok (r : ExecutionResult) (hok : r.ok = true) (herr : r.error = "") :
    ResultInv r :=
  ⟨fun _ => herr, fun hf => by rw [hok] at hf; exact Bool.noConfusion hf⟩

theorem resultInv_err (r : ExecutionResult) (hok : r.ok = false) (herr : r.error ≠ "") :
    ResultInv r :=
  ⟨fun ht => by rw [hok] at ht; exact Bool.noConfusion ht, fun _ => herr⟩

theorem blockedMsg_ne_empty (t : String) : SecurityPolicy.blockedMsg t ≠ "" := by
  apply data_ne_nil_imp
  simp [SecurityPolicy.blockedMsg, String.data_append]

theorem outsideMsg_ne_empty (r : Resolver) (t : String) (R : List String) :
    SecurityPolicy.outsideMsg r t R ≠ "" := by
  apply data_ne_nil_imp
  simp [SecurityPolicy.outsideMsg, String.data_append]

theorem resolve_error_ne_empty {fs : FS} {p : String} {me : Bool}
    {R B : Option (List String)} {e : String}
    (h : SecurityPolicy.resolve_safe_path fs p me R B = .error e) : e ≠ "" := by
  unfold SecurityPolicy.resolve_safe_path at h
  by_cases hb : SecurityPolicy.is_blocked (SecurityPolicy.safeTarget fs p me)
      (B.getD SecurityPolicy.DEFAULT_BLOCKED_PATTERNS) <;>
    by_cases ha : SecurityPolicy.is_allowed fs.res (SecurityPolicy.safeTarget fs p me)
      (R.getD SecurityPolicy.DEFAULT_ALLOWED_ROOTS) <;>
    simp [hb, ha] at h <;> rw [← h]
  · exact blockedMsg_ne_empty _
  · exact blockedMsg_ne_empty _
  · exact outsideMsg_ne_empty _ _ _

theorem timeoutMsg_ne_empty (t : Nat) :
    "Command timed out after " ++ toString t ++ "s" ≠ "" := by
  apply data_ne_nil_imp
  rw [String.data_append, String.data_append]
  intro h
  exact absurd (List.append_eq_nil.mp (List.append_eq_nil.mp h).1).1 (by decide)

theorem winrmExec_inv (st : ExecutorState) (wenv : WinRMEnv) (c : String) (t : Nat)
    (hw : outcomeMsgOk (wenv.run c)) :
    ResultInv (WinRMExecutor.execute_command st wenv c t) := by
  unfold WinRMExecutor.execute_command
  split
  · exact resultInv_err _ rfl (by simp)
  · split
    · exact resultInv_err _ rfl (by simp)
    · split
      · exact resultInv_ok _ rfl rfl
      · exact resultInv_err _ rfl (timeoutMsg_ne_empty t)
      · rename_i m heq
        exact resultInv_err _ rfl (hw m heq)

/-- C6 amended: every result of every modelled executor operation satisfies
the dichotomy — `ok` with empty `error`, or `¬ok` with non-empty `error` —
provided the transport reports exceptions with non-empty messages.  Every
message the code itself builds starts with a non-empty literal; the sole
escape is a caught exception whose `str` is empty, which the blanket
handlers copy verbatim into `error` (see the counterexample below). -/
theorem C6_result_invariant
    (st : ExecutorState) (fs : FS) (env : SSHEnv) (wenv : WinRMEnv)
    (oc : CmdOutcome) (cmd path : String) (content : List Nat) (t : Nat)
    (listing : String → List (Bool × String))
    (hoc : outcomeMsgOk oc)
    (henv : ∀ c, outcomeMsgOk (env.run c))
    (hwenv : ∀ c, outcomeMsgOk (wenv.run c))
    (hsr : ∀ p m, env.sftpRead p = .error m → m ≠ "")
    (hsw : ∀ p cs m, env.sftpWrite p cs = some m → m ≠ "")
    (hsl : ∀ p m, env.sftpList p = .error m → m ≠ "") :
    ResultInv (LocalExecutor.execute_command st oc cmd t) ∧
    ResultInv (LocalExecutor.read_file fs st path) ∧
    ResultInv (LocalExecutor.write_file fs st path content).1 ∧
    ResultInv (LocalExecutor.list_directory fs st path listing) ∧
    ResultInv (SSHExecutor.execute_command st env cmd t) ∧
    ResultInv (SSHExecutor.read_file st env path) ∧
    ResultInv (SSHExecutor.write_file st env path content) ∧
    ResultInv (SSHExecutor.list_directory st env path) ∧
    ResultInv (WinRMExecutor.execute_command st wenv cmd t) ∧
    ResultInv (WinRMExecutor.read_file st wenv path) ∧
    ResultInv (WinRMExecutor.write_file st wenv path content) ∧
    ResultInv (WinRMExecutor.list_directory st wenv path) := by
  refine ⟨?_, ?_, ?_, ?_, ?_, ?_, ?_, ?_, ?_, ?_, ?_, ?_⟩
  · unfold LocalExecutor.execute_command
    split
    · exact resultInv_err _ rfl (by simp)
    · split
      · exact resultInv_ok _ rfl rfl
      · exact resultInv_err _ rfl (timeoutMsg_ne_empty t)
      · rename_i m
        exact resultInv_err _ rfl (hoc m rfl)
  · unfold LocalExecutor.read_file
    split
    · exact resultInv_err _ rfl (append_ne_empty_left _ _ (by decide))
    · split
      · exact resultInv_err _ rfl (append_ne_empty_left _ _ (by decide))
      · split
        · exact resultInv_err _ rfl (append_ne_empty_left _ _ (by decide))
        · exact resultInv_ok _ rfl rfl
  · unfold LocalExecutor.write_file
    split
    · exact resultInv_err _ rfl (append_ne_empty_left _ _ (by decide))
    · exact resultInv_ok _ rfl rfl
  · unfold LocalExecutor.list_directory
    split
    · rename_i e heq
      exact resultInv_err _ rfl (resolve_error_ne_empty heq)
    · split
      · exact resultInv_err _ rfl (append_ne_empty_left _ _ (by decide))
      · exact resultInv_ok _ rfl rfl
  · unfold SSHExecutor.execute_command
    split
    · exact resultInv_err _ rfl (by simp)
    · split
      · exact resultInv_err _ rfl (by simp)
      · split
        · exact resultInv_ok _ rfl rfl
        · exact resultInv_err _ rfl (timeoutMsg_ne_empty t)
        · rename_i m heq
          exact resultInv_err _ rfl (henv cmd m heq)
  · unfold SSHExecutor.read_file
    split
    · exact resultInv_err _ rfl (by simp)
    · split
      · rename_i m heq
        exact resultInv_err _ rfl (hsr path m heq)
      · dsimp only
        split
        · exact resultInv_err _ rfl (by simp)
        · exact resultInv_ok _ rfl rfl
  · unfold SSHExecutor.write_file
    split
    · exact resultInv_err _ rfl (by simp)
    · dsimp only
      split
      · rename_i m heq
        exact resultInv_err _ rfl (hsw path content m heq)
      · exact resultInv_ok _ rfl rfl
  · unfold SSHExecutor.list_directory
    split
    · exact resultInv_err _ rfl (by simp)
    · split
      · rename_i m heq
        exact resultInv_err _ rfl (hsl path m heq)
      · exact resultInv_ok _ rfl rfl
  · exact winrmExec_inv st wenv cmd t (hwenv cmd)
  · unfold WinRMExecutor.read_file
    split
    · exact resultInv_err _ rfl (by simp)
    · dsimp only
      split
      · split
        · exact resultInv_err _ rfl (by simp)
        · exact resultInv_ok _ rfl rfl
      · rename_i hok
        exact resultInv_err _ (by simpa using hok)
          ((winrmExec_inv st wenv _ 60 (hwenv _)).2 (by simpa using hok))
  · unfold WinRMExecutor.write_file
    split
    · exact resultInv_err _ rfl (by simp)
    · dsimp only
      split
      · exact resultInv_ok _ rfl rfl
      · rename_i hok
        exact resultInv_err _ (by simpa using hok)
          ((winrmExec_inv st wenv _ 60 (hwenv _)).2 (by simpa using hok))
  · unfold WinRMExecutor.list_directory
    split
    · exact resultInv_err _ rfl (by simp)
    · dsimp only
      split
      · exact resultInv_ok _ rfl rfl
      · rename_i hok
        exact resultInv_err _ (by simpa using hok)
          ((winrmExec_inv st wenv _ 60 (hwenv _)).2 (by simpa using hok))

/-- Witness for C6 at a concrete state and transport. -/
theorem C6_result_invariant_witness :
    ResultInv (LocalExecutor.execute_command ⟨"l", true, [], []⟩ (.failed "boom") "ls" 60) ∧
    ResultInv (SSHExecutor.read_file ⟨"l", true, [], []⟩
      ⟨fun _ => .failed "boom", fun _ => .error "gone", fun _ _ => some "gone",
       fun _ => .error "gone"⟩ "/tmp/x") :=
  have h := C6_result_invariant ⟨"l", true, [], []⟩ fsDemo
    ⟨fun _ => .failed "boom", fun _ => .error "gone", fun _ _ => some "gone",
     fun _ => .error "gone"⟩
    ⟨fun _ => .failed "boom"⟩ (.failed "boom") "ls" "/tmp/x" [] 60 (fun _ => [])
    (fun m hm => by cases hm; decide)
    (fun c m hm => by cases hm; decide)
    (fun c m hm => by cases hm; decide)
    (fun p m hm => by cases hm; decide)
    (fun p cs m hm => by cases hm; decide)
    (fun p m hm => by cases hm; decide)
  ⟨h.1, h.2.2.2.2.2.1⟩

/-- C6 counterexample: an SFTP read failing with an exception whose text is
empty — as `asyncio.TimeoutError` raised past the 30-second bound of SSH
`read_file` and caught by the blanket handler as `error = str(e)` — yields
`ok = false` together with an empty `error`, so the unconditional dichotomy
of the claim fails on this reachable result. -/
theorem C6_empty_exception_message :
    ¬ ResultInv (SSHExecutor.read_file ⟨"s", true, [], []⟩ sshEnvEmptyMsg "/tmp/x") ∧
    (SSHExecutor.read_file ⟨"s", true, [], []⟩ sshEnvEmptyMsg "/tmp/x").ok = false ∧
    (SSHExecutor.read_file ⟨"s", true, [], []⟩ sshEnvEmptyMsg "/tmp/x").error = "" :=
  ⟨fun h => (h.2 rfl) rfl, rfl, rfl⟩

/-! UTF-8 round-trip lemmas. -/

theorem translateNewlines_noCR (cs : List Nat) (h : ∀ x ∈ cs, x ≠ 13) :
    translateNewlines cs = cs := by
  unfold translateNewlines
  induction cs with
  | nil => rfl
  | cons c rest ih =>
    have hc : c ≠ 13 := h c (by simp)
    have hr := ih (fun x hx => h x (by simp [hx]))
    simp only [translateNewlinesGo, Bool.false_eq_true, if_false, if_neg hc, hr]

theorem contByte_low (c : Nat) : contByte (0x80 + c % 64) = true := by
  unfold contByte
  simp only [Bool.and_eq_true, decide_eq_true_eq]
  omega

theorem utf8DecodeGo_encodeChar (c : Nat) (h1 : c < 0x110000)
    (h2 : ¬(0xD800 ≤ c ∧ c ≤ 0xDFFF)) (rest : List Nat) :
    utf8DecodeGo none (utf8EncodeChar c ++ rest) = c :: utf8DecodeGo none rest := by
  unfold utf8EncodeChar
  by_cases ha : c < 0x80
  · rw [if_pos ha]
    simp [utf8DecodeGo, ha]
  · rw [if_neg ha]
    by_cases hb : c < 0x800
    · rw [if_pos hb]
      simp only [List.cons_append, List.nil_append]
      have e1 : utf8DecodeGo none ((0xC0 + c / 64) :: (0x80 + c % 64) :: rest) =
          utf8DecodeGo (some ⟨1, 0xC0 + c / 64 - 0xC0, 0xC0 + c / 64, false⟩)
            ((0x80 + c % 64) :: rest) := by
        have g1 : ¬(0xC0 + c / 64 < 0x80) := by omega
        have g2 : 0xC2 ≤ 0xC0 + c / 64 := by omega
        have g3 : 0xC0 + c / 64 ≤ 0xDF := by omega
        simp [utf8DecodeGo, g1, g2, g3]
      have e2 : utf8DecodeGo (some ⟨1, 0xC0 + c / 64 - 0xC0, 0xC0 + c / 64, false⟩)
          ((0x80 + c % 64) :: rest) =
          ((0xC0 + c / 64 - 0xC0) * 64 + (0x80 + c % 64 - 0x80)) :: utf8DecodeGo none rest := by
        have hok : cont2ok (0xC0 + c / 64) (0x80 + c % 64) = true := by
          unfold cont2ok
          rw [if_neg (by omega : ¬(0xC0 + c / 64 = 0xE0)),
            if_neg (by omega : ¬(0xC0 + c / 64 = 0xED))]
          exact contByte_low c
        have hlt : 0xC0 + c / 64 < 0xF0 := by omega
        simp [utf8DecodeGo, hlt, hok]
      rw [e1, e2]
      have harith : (0xC0 + c / 64 - 0xC0) * 64 + (0x80 + c % 64 - 0x80) = c := by omega
      rw [harith]
    · by_cases hcc : c < 0x10000
      · rw [if_neg hb, if_pos hcc]
        simp only [List.cons_append, List.nil_append]
        have e1 : utf8DecodeGo none
            ((0xE0 + c / 4096) :: (0x80 + c / 64 % 64) :: (0x80 + c % 64) :: rest) =
            utf8DecodeGo (some ⟨2, 0xE0 + c / 4096 - 0xE0, 0xE0 + c / 4096, false⟩)
              ((0x80 + c / 64 % 64) :: (0x80 + c % 64) :: rest) := by
          have g1 : ¬(0xE0 + c / 4096 < 0x80) := by omega
          have g2 : ¬(0xE0 + c / 4096 ≤ 0xDF) := by omega
          have g3 : 0xE0 ≤ 0xE0 + c / 4096 := by omega
          have g4 : 0xE0 + c / 4096 ≤ 0xEF := by omega
          simp [utf8DecodeGo, g1, g2, g3, g4]
        have e2 : utf8DecodeGo (some ⟨2, 0xE0 + c / 4096 - 0xE0, 0xE0 + c / 4096, false⟩)
            ((0x80 + c / 64 % 64) :: (0x80 + c % 64) :: rest) =
            utf8DecodeGo (some ⟨1, (0xE0 + c / 4096 - 0xE0) * 64 + (0x80 + c / 64 % 64 - 0x80),
              0xE0 + c / 4096, true⟩) ((0x80 + c % 64) :: rest) := by
          have hok : cont2ok (0xE0 + c / 4096) (0x80 + c / 64 % 64) = true := by
            unfold cont2ok
            by_cases he0 : 0xE0 + c / 4096 = 0xE0
            · rw [if_pos he0]
              simp only [Bool.and_eq_true, decide_eq_true_eq]
              omega
            · rw [if_neg he0]
              by_cases hed : 0xE0 + c / 4096 = 0xED
              · rw [if_pos hed]
                simp only [Bool.and_eq_true, decide_eq_true_eq]
                omega
              · rw [if_neg hed]
                unfold contByte
                simp only [Bool.and_eq_true, decide_eq_true_eq]
                omega
          have hlt : 0xE0 + c / 4096 < 0xF0 := by omega
          simp [utf8DecodeGo, hlt, hok]
        have e3 : utf8DecodeGo (some ⟨1, (0xE0 + c / 4096 - 0xE0) * 64 +
              (0x80 + c / 64 % 64 - 0x80), 0xE0 + c / 4096, true⟩) ((0x80 + c % 64) :: rest) =
            (((0xE0 + c / 4096 - 0xE0) * 64 + (0x80 + c / 64 % 64 - 0x80)) * 64 +
              (0x80 + c % 64 - 0x80)) :: utf8DecodeGo none rest := by
          simp [utf8DecodeGo, contByte_low c]
        rw [e1, e2, e3]
        have harith : ((0xE0 + c / 4096 - 0xE0) * 64 + (0x80 + c / 64 % 64 - 0x80)) * 64 +
            (0x80 + c % 64 - 0x80) = c := by omega
        rw [harith]
      · rw [if_neg hb, if_neg hcc]
        simp only [List.cons_append, List.nil_append]
        have e1 : utf8DecodeGo none ((0xF0 + c / 262144) :: (0x80 + c / 4096 % 64) ::
            (0x80 + c / 64 % 64) :: (0x80 + c % 64) :: rest) =
            utf8DecodeGo (some ⟨3, 0xF0 + c / 262144 - 0xF0, 0xF0 + c / 262144, false⟩)
              ((0x80 + c / 4096 % 64) :: (0x80 + c / 64 % 64) :: (0x80 + c % 64) :: rest) := by
          have g1 : ¬(0xF0 + c / 262144 < 0x80) := by omega
          have g2 : ¬(0xF0 + c / 262144 ≤ 0xDF) := by omega
          have g3 : ¬(0xF0 + c / 262144 ≤ 0xEF) := by omega
          have g4 : 0xF0 ≤ 0xF0 + c / 262144 := by omega
          have g5 : 0xF0 + c / 262144 ≤ 0xF4 := by omega
          simp [utf8DecodeGo, g1, g2, g3, g4, g5]
        have e2 : utf8DecodeGo (some ⟨3, 0xF0 + c / 262144 - 0xF0, 0xF0 + c / 262144, false⟩)
            ((0x80 + c / 4096 % 64) :: (0x80 + c / 64 % 64) :: (0x80 + c % 64) :: rest) =
            utf8DecodeGo (some ⟨2, (0xF0 + c / 262144 - 0xF0) * 64 + (0x80 + c / 4096 % 64 - 0x80),
              0xF0 + c / 262144, true⟩) ((0x80 + c / 64 % 64) :: (0x80 + c % 64) :: rest) := by
          have hok : cont2okQ (0xF0 + c / 262144) (0x80 + c / 4096 % 64) = true := by
            unfold cont2okQ
            by_cases hf0 : 0xF0 + c / 262144 = 0xF0
            · rw [if_pos hf0]
              simp only [Bool.and_eq_true, decide_eq_true_eq]
              omega
            · rw [if_neg hf0]
              by_cases hf4 : 0xF0 + c / 262144 = 0xF4
              · rw [if_pos hf4]
                simp only [Bool.and_eq_true, decide_eq_true_eq]
                omega
              · rw [if_neg hf4]
                unfold contByte
                simp only [Bool.and_eq_true, decide_eq_true_eq]
                omega
          have hge : ¬(0xF0 + c / 262144 < 0xF0) := by omega
          simp [utf8DecodeGo, hge, hok]
        have e3 : utf8DecodeGo (some ⟨2, (0xF0 + c / 262144 - 0xF0) * 64 +
              (0x80 + c / 4096 % 64 - 0x80), 0xF0 + c / 262144, true⟩)
            ((0x80 + c / 64 % 64) :: (0x80 + c % 64) :: rest) =
            utf8DecodeGo (some ⟨1, ((0xF0 + c / 262144 - 0xF0) * 64 +
              (0x80 + c / 4096 % 64 - 0x80)) * 64 + (0x80 + c / 64 % 64 - 0x80),
              0xF0 + c / 262144, true⟩) ((0x80 + c % 64) :: rest) := by
          have hcb : contByte (0x80 + c / 64 % 64) = true := by
            unfold contByte
            simp only [Bool.and_eq_true, decide_eq_true_eq]
            omega
          simp [utf8DecodeGo, hcb]
        have e4 : utf8DecodeGo (some ⟨1, ((0xF0 + c / 262144 - 0xF0) * 64 +
              (0x80 + c / 4096 % 64 - 0x80)) * 64 + (0x80 + c / 64 % 64 - 0x80),
              0xF0 + c / 262144, true⟩) ((0x80 + c % 64) :: rest) =
            ((((0xF0 + c / 262144 - 0xF0) * 64 + (0x80 + c / 4096 % 64 - 0x80)) * 64 +
              (0x80 + c / 64 % 64 - 0x80)) * 64 + (0x80 + c % 64 - 0x80)) ::
              utf8DecodeGo none rest := by
          simp [utf8DecodeGo, contByte_low c]
        rw [e1, e2, e3, e4]
        have harith : (((0xF0 + c / 262144 - 0xF0) * 64 + (0x80 + c / 4096 % 64 - 0x80)) * 64 +
            (0x80 + c / 64 % 64 - 0x80)) * 64 + (0x80 + c % 64 - 0x80) = c := by omega
        rw [harith]

theorem utf8DecodeIgnore_encode (cs : List Nat) (h : ∀ c ∈ cs, isScalar c = true) :
    utf8DecodeIgnore (utf8Encode cs) = cs := by
  induction cs with
  | nil => rfl
  | cons c rest ih =>
    have hc := h c (by simp)
    have h1 : c < 0x110000 := by
      by_contra hcon
      simp [isScalar, hcon] at hc
    have h2 : ¬(0xD800 ≤ c ∧ c ≤ 0xDFFF) := by
      intro hsur
      simp [isScalar, hsur.1, hsur.2] at hc
    show utf8DecodeGo none (utf8Encode (c :: rest)) = c :: rest
    have he : utf8Encode (c :: rest) = utf8EncodeChar c ++ utf8Encode rest := rfl
    rw [he, utf8DecodeGo_encodeChar c h1 h2]
    have hrest := ih (fun x hx => h x (by simp [hx]))
    unfold utf8DecodeIgnore at hrest
    rw [hrest]

theorem utf8Encode_replicate_length (n a : Nat) :
    (utf8Encode (List.replicate n a)).length = n * (utf8EncodeChar a).length := by
  induction n with
  | zero => simp [utf8Encode]
  | succ n ih =>
    show (utf8Encode (a :: List.replicate n a)).length = (n + 1) * (utf8EncodeChar a).length
    have : utf8Encode (a :: List.replicate n a) =
        utf8EncodeChar a ++ utf8Encode (List.replicate n a) := rfl
    rw [this, List.length_append, ih]
    ring

/-- C2 (code bug): a connected SSH executor reads a path that matches its
own blocked patterns — `read_file` never consults `resolve_safe_path`, so
the transport is reached and the blocked file's content is returned. -/
theorem C2_ssh_read_skips_policy :
    SecurityPolicy.is_blocked "/etc/passwd" ["*/etc/*"] = true ∧
    SSHExecutor.read_file ⟨"ssh1", true, ["/home"], ["*/etc/*"]⟩
      ⟨fun _ => .timedOut,
       fun p => if p = "/etc/passwd" then .ok (strCps "root:x:0:0") else .error "missing",
       fun _ _ => none, fun _ => .error "no"⟩ "/etc/passwd" =
      { ok := true, content := utf8DecodeIgnore (strCps "root:x:0:0"),
        path := "/etc/passwd", target := "ssh1" } := by
  constructor
  · decide
  · rfl

/-- C4 amended: on a coherent resolver, writing encoding-safe content under
an allowed, unblocked target and reading it back succeeds and returns the
content exactly — provided its UTF-8 encoding fits the 2 MiB read ceiling. -/
theorem C4_write_read_roundtrip (fs : FS) (st : ExecutorState) (p : String) (c : List Nat)
    (hres : fs.res.resolve p = joinPath (fs.res.parentResolve p) (fs.res.leafName p))
    (hallow : SecurityPolicy.is_allowed fs.res (fs.res.resolve p) st.allowed_roots = true)
    (hblock : SecurityPolicy.is_blocked (fs.res.resolve p) st.blocked_patterns = false)
    (hscalar : ∀ x ∈ c, isScalar x = true)
    (hnocr : ∀ x ∈ c, x ≠ 13)
    (hsize : (utf8Encode c).length ≤ 2 * 1024 * 1024) :
    (LocalExecutor.write_file fs st p c).1.ok = true ∧
    (LocalExecutor.read_file (LocalExecutor.write_file fs st p c).2 st p).ok = true ∧
    (LocalExecutor.read_file (LocalExecutor.write_file fs st p c).2 st p).content = c := by
  rw [hres] at hallow hblock
  have hst : SecurityPolicy.safeTarget fs p false =
      joinPath (fs.res.parentResolve p) (fs.res.leafName p) := rfl
  have hrsp : SecurityPolicy.resolve_safe_path fs p false (some st.allowed_roots)
      (some st.blocked_patterns) =
      Except.ok (joinPath (fs.res.parentResolve p) (fs.res.leafName p)) := by
    unfold SecurityPolicy.resolve_safe_path
    simp [hst, hblock, hallow]
  have hw2 : (LocalExecutor.write_file fs st p c).2 =
      ({ fs with files := fun q =>
          (if q = joinPath (fs.res.parentResolve p) (fs.res.leafName p) then
            some (utf8Encode c)
          else fs.files q) } : FS) := by
    unfold LocalExecutor.write_file
    rw [hrsp]
  have hw1 : (LocalExecutor.write_file fs st p c).1.ok = true := by
    unfold LocalExecutor.write_file
    rw [hrsp]
  refine ⟨hw1, ?_⟩
  rw [hw2]
  set fs2 : FS := ({ fs with files := fun q =>
      (if q = joinPath (fs.res.parentResolve p) (fs.res.leafName p) then
        some (utf8Encode c)
      else fs.files q) } : FS) with hfs2
  have hres2 : fs2.res = fs.res := rfl
  have hfiles : fs2.files (joinPath (fs.res.parentResolve p) (fs.res.leafName p)) =
      some (utf8Encode c) := by
    rw [hfs2]
    simp
  have hex : fs2.pathExists p = true := by
    unfold FS.pathExists
    rw [hres2, hres, hfiles]
    rfl
  have hst2 : SecurityPolicy.safeTarget fs2 p true =
      joinPath (fs.res.parentResolve p) (fs.res.leafName p) := by
    unfold SecurityPolicy.safeTarget
    rw [hex]
    simp [hres2, hres]
  have hrsp2 : SecurityPolicy.resolve_safe_path fs2 p true (some st.allowed_roots)
      (some st.blocked_patterns) =
      Except.ok (joinPath (fs.res.parentResolve p) (fs.res.leafName p)) := by
    unfold SecurityPolicy.resolve_safe_path
    rw [hst2]
    simp [hres2, hblock, hallow]
  have hsz : ¬((utf8Encode c).length > 2 * 1024 * 1024) := by omega
  have hread : LocalExecutor.read_file fs2 st p =
      { ok := true, content := translateNewlines (utf8DecodeIgnore (utf8Encode c)),
        path := joinPath (fs.res.parentResolve p) (fs.res.leafName p), target := st.name } := by
    unfold LocalExecutor.read_file
    rw [hrsp2]
    dsimp only
    simp [hsz]
  rw [hread, utf8DecodeIgnore_encode c hscalar, translateNewlines_noCR c hnocr]
  exact ⟨rfl, rfl⟩

/-- Witness for C4 amended: `hello` written to `/ws/f` round-trips. -/
theorem C4_write_read_roundtrip_witness :
    (LocalExecutor.write_file fsRT stRT "/ws/f" (strCps "hello")).1.ok = true ∧
    (LocalExecutor.read_file (LocalExecutor.write_file fsRT stRT "/ws/f" (strCps "hello")).2
      stRT "/ws/f").ok = true ∧
    (LocalExecutor.read_file (LocalExecutor.write_file fsRT stRT "/ws/f" (strCps "hello")).2
      stRT "/ws/f").content = strCps "hello" :=
  C4_write_read_roundtrip fsRT stRT "/ws/f" (strCps "hello") rfl (by decide) (by decide)
    (by decide) (by decide) (by decide)

/-- C4 counterexample: 2 MiB + 1 characters of ASCII write fine but the
read back fails on the size ceiling, so the round trip of the claim (which
has no size restriction) does not hold as stated. -/
theorem C4_oversized_roundtrip_fails :
    (LocalExecutor.write_file fsRT stRT "/ws/f" bigAsciiContent).1.ok = true ∧
    (LocalExecutor.read_file (LocalExecutor.write_file fsRT stRT "/ws/f" bigAsciiContent).2
      stRT "/ws/f").ok = false := by
  have hlen : (utf8Encode bigAsciiContent).length = 2097153 := by
    unfold bigAsciiContent
    rw [utf8Encode_replicate_length]
    rfl
  have hrsp : SecurityPolicy.resolve_safe_path fsRT "/ws/f" false (some stRT.allowed_roots)
      (some stRT.blocked_patterns) = Except.ok "/ws/f" := rfl
  have hw2 : (LocalExecutor.write_file fsRT stRT "/ws/f" bigAsciiContent).2 =
      ({ fsRT with files := fun q =>
          (if q = "/ws/f" then some (utf8Encode bigAsciiContent) else fsRT.files q) } : FS) := by
    unfold LocalExecutor.write_file
    rw [hrsp]
  constructor
  · unfold LocalExecutor.write_file
    rw [hrsp]
  · rw [hw2]
    set fs2 : FS := ({ fsRT with files := fun q =>
        (if q = "/ws/f" then some (utf8Encode bigAsciiContent) else fsRT.files q) } : FS) with hfs2
    have hfiles : fs2.files "/ws/f" = some (utf8Encode bigAsciiContent) := by
      rw [hfs2]
      simp
    have hrsp2 : SecurityPolicy.resolve_safe_path fs2 "/ws/f" true (some stRT.allowed_roots)
        (some stRT.blocked_patterns) = Except.ok "/ws/f" := by
      unfold SecurityPolicy.resolve_safe_path
      have hst2 : SecurityPolicy.safeTarget fs2 "/ws/f" true = "/ws/f" := by
        unfold SecurityPolicy.safeTarget FS.pathExists
        rw [show fs2.res.resolve "/ws/f" = "/ws/f" from rfl, hfiles]
        rfl
      rw [hst2]
      simp [show SecurityPolicy.is_blocked "/ws/f" stRT.blocked_patterns = false from rfl,
        show SecurityPolicy.is_allowed fs2.res "/ws/f" stRT.allowed_roots = true from rfl]
    have hsz : (utf8Encode bigAsciiContent).length > 2 * 1024 * 1024 := by
      rw [hlen]
      omega
    unfold LocalExecutor.read_file
    rw [hrsp2]
    dsimp only
    simp [hsz]

/-- C5 amended: the local read enforces the 2 MiB ceiling on the byte size
reported by `stat` (2 MiB passes, 2 MiB + 1 is rejected), while the SSH read
enforces it on the decoded character count after transfer, not on bytes. -/
theorem C5_size_boundary :
    (∀ (fs : FS) (st : ExecutorState) (p safe : String) (bytes : List Nat),
      SecurityPolicy.resolve_safe_path fs p true (some st.allowed_roots)
        (some st.blocked_patterns) = .ok safe →
      fs.files safe = some bytes →
      ((bytes.length > 2 * 1024 * 1024 →
        LocalExecutor.read_file fs st p =
          { ok := false, error := "File too large (>2MB): " ++ safe, target := st.name }) ∧
       (bytes.length ≤ 2 * 1024 * 1024 → (LocalExecutor.read_file fs st p).ok = true))) ∧
    (∀ (st : ExecutorState) (env : SSHEnv) (p : String) (bytes : List Nat),
      st.connected = true →
      env.sftpRead p = .ok bytes →
      (((utf8DecodeIgnore bytes).length > 2 * 1024 * 1024 →
        SSHExecutor.read_file st env p =
          { ok := false, error := "File too large (>2MB)", target := st.name }) ∧
       ((utf8DecodeIgnore bytes).length ≤ 2 * 1024 * 1024 →
        (SSHExecutor.read_file st env p).ok = true))) := by
  constructor
  · intro fs st p safe bytes hrsp hfile
    constructor
    · intro hbig
      unfold LocalExecutor.read_file
      rw [hrsp]
      dsimp only
      rw [hfile]
      simp [hbig]
    · intro hsmall
      have hns : ¬(bytes.length > 2 * 1024 * 1024) := by omega
      unfold LocalExecutor.read_file
      rw [hrsp]
      dsimp only
      rw [hfile]
      simp [hns]
  · intro st env p bytes hc hr
    constructor
    · intro hbig
      unfold SSHExecutor.read_file
      rw [hr]
      simp [hc, hbig]
    · intro hsmall
      have hns : ¬((utf8DecodeIgnore bytes).length > 2 * 1024 * 1024) := by omega
      unfold SSHExecutor.read_file
      rw [hr]
      simp [hc, hns]

/-- Witness for C5 amended at a concrete two-byte file on both backends. -/
theorem C5_size_boundary_witness :
    (LocalExecutor.read_file fsSmall stRT "/ws/f").ok = true ∧
    (SSHExecutor.read_file ⟨"s", true, [], []⟩ sshEnvSmall "/tmp/x").ok = true :=
  ⟨(C5_size_boundary.1 fsSmall stRT "/ws/f" "/ws/f" [104, 105] rfl rfl).2 (by decide),
   (C5_size_boundary.2 ⟨"s", true, [], []⟩ sshEnvSmall "/tmp/x" [104, 105] rfl rfl).2
     (by decide)⟩

/-- C5 counterexample: a 2097154-byte remote file decodes to 1048577
characters, so the SSH read accepts it with `ok = true` although its byte
size exceeds 2 MiB — the byte-exact boundary of the claim fails on the SSH
backend. -/
theorem C5_ssh_reads_oversized_file :
    bigLatinBytes.length = 2097154 ∧
    (SSHExecutor.read_file ⟨"s", true, [], []⟩ sshEnvBig "/data/big.txt").ok = true ∧
    (SSHExecutor.read_file ⟨"s", true, [], []⟩ sshEnvBig "/data/big.txt").content.length =
      1048577 := by
  have hlen : bigLatinBytes.length = 2097154 := by
    unfold bigLatinBytes
    rw [utf8Encode_replicate_length]
    rfl
  have hdec : utf8DecodeIgnore bigLatinBytes = List.replicate 1048577 0xA2 := by
    unfold bigLatinBytes
    exact utf8DecodeIgnore_encode _ (by
      intro x hx
      rw [List.eq_of_mem_replicate hx]
      decide)
  have hdlen : (utf8DecodeIgnore bigLatinBytes).length = 1048577 := by
    rw [hdec, List.length_replicate]
  have hns : ¬((utf8DecodeIgnore bigLatinBytes).length > 2 * 1024 * 1024) := by
    rw [hdlen]
    omega
  have hread : SSHExecutor.read_file ⟨"s", true, [], []⟩ sshEnvBig "/data/big.txt" =
      { ok := true, content := utf8DecodeIgnore bigLatinBytes, path := "/data/big.txt",
        target := "s" } := by
    unfold SSHExecutor.read_file
    rw [show sshEnvBig.sftpRead "/data/big.txt" = Except.ok bigLatinBytes from rfl]
    dsimp only
    rw [if_neg hns]
    rfl
  exact ⟨hlen, by rw [hread], by rw [hread]; exact hdlen⟩

end OpenClaw
